import Mathlib

/-!
Verification of the ValutaTrade Hub core: a shallow embedding of the
portfolio/trade use cases (`core/usecases.py`, `core/models.py`), the rate
resolution and freshness helpers, and the parser-service updater/storage
(`parser_service/updater.py`, `parser_service/storage.py`).

Money amounts and exchange rates are modelled as exact rationals (`Rat`);
Python dicts are modelled as insertion-ordered association lists; JSON file
writes are modelled as explicit write operations; exceptions are modelled by
an error type whose constructors mirror the Python exception classes raised
by the source (`ValueError`, `InsufficientFundsError`, `CurrencyNotFoundError`,
`ApiRequestError`).
-/

set_option autoImplicit false

namespace ValutaTradeHub

/-! ## String helpers: models of Python `str.strip`, `str.upper`, slicing -/

/-- Model of Python whitespace test used by `str.strip`. -/
def pyIsSpace (c : Char) : Bool :=
  c == ' ' || c == '\t' || c == '\n' || c == '\r'

/-- Model of Python `s.strip()`: drop leading and trailing whitespace. -/
def pyStrip (s : String) : String :=
  ⟨((s.data.dropWhile pyIsSpace).reverse.dropWhile pyIsSpace).reverse⟩

/-- Uppercase one ASCII character (model of `str.upper` on one char). -/
def pyUpChar (c : Char) : Char :=
  if 97 ≤ c.toNat ∧ c.toNat ≤ 122 then Char.ofNat (c.toNat - 32) else c

/-- Model of Python `s.upper()` (ASCII, which covers all currency codes). -/
def pyUpper (s : String) : String :=
  ⟨s.data.map pyUpChar⟩

/-- Model of Python slicing `s[:n]`. -/
def pyTake (n : Nat) (s : String) : String :=
  ⟨s.data.take n⟩

/-- Lexicographic comparison of char lists by code point (Python `<=` on `str`). -/
def charListLe : List Char → List Char → Bool
  | [], _ => true
  | _ :: _, [] => false
  | a :: as, b :: bs =>
    if a.toNat < b.toNat then true
    else if b.toNat < a.toNat then false
    else charListLe as bs

/-- Python string order, used by `sorted(...)`. -/
def strLe (a b : String) : Bool :=
  charListLe a.data b.data

/-- `s.startswith(p)` on the character lists. -/
def listStartsWith (p s : List Char) : Bool :=
  decide (s.take p.length = p)

/-- `s.endswith(p)` on the character lists. -/
def listEndsWith (p s : List Char) : Bool :=
  listStartsWith p.reverse s.reverse

/-! ## Python dicts as insertion-ordered association lists -/

/-- A Python `dict` with `String` keys: an association list in insertion
order; keys are unique for dicts built by `dinsert` from `[]`. -/
abbrev Dict (α : Type) := List (String × α)

/-- `d.get(k)`: first binding of `k`. -/
def dlookup {α : Type} (k : String) : Dict α → Option α
  | [] => none
  | (k', v) :: rest => if k' = k then some v else dlookup k rest

/-- `d[k] = v`: overwrite the binding in place if present, else append. -/
def dinsert {α : Type} (k : String) (v : α) : Dict α → Dict α
  | [] => [(k, v)]
  | (k', v') :: rest =>
    if k' = k then (k', v) :: rest else (k', v') :: dinsert k v rest

/-- `d.keys()` in order. -/
def dkeys {α : Type} (d : Dict α) : List String :=
  d.map Prod.fst

/-- The binding of `k` written last (Python semantics of repeated
`d[k] = v` assignments over a list of pairs). -/
def lastLookup {α : Type} (k : String) : List (String × α) → Option α
  | [] => none
  | kv :: tl => (lastLookup k tl).or (if kv.1 = k then some kv.2 else none)

/-! ## Errors: the Python exception classes raised by the source -/

/-- Exceptions raised by the embedded code.  `valueError` is a generic
`ValueError` with a message; `walletValueError` is the `ValueError` raised by
`Wallet.withdraw`, whose message interpolates the available balance, the
required amount (both formatted to 4 decimal places) and the currency code;
`insufficientFunds` is the `InsufficientFundsError(available, required, code)`
class from `core/exceptions.py`; `currencyNotFound` is
`CurrencyNotFoundError`; `apiRequestError` is `ApiRequestError`;
`rateUnavailable` is the abstract `RateUnavailable(from, to)` failure named by
the specification. -/
inductive Err : Type where
  | valueError (msg : String)
  | walletValueError (available required : Rat) (code : String)
  | insufficientFunds (available required : Rat) (code : String)
  | currencyNotFound (code : String)
  | apiRequestError (reason : String)
  | rateUnavailable (frm toC : String)
  deriving DecidableEq, Repr

/-- Decidable equality for `Except`, so concrete runs can be settled by
`decide`. -/
def exceptDecEq {ε α : Type} [DecidableEq ε] [DecidableEq α] :
    DecidableEq (Except ε α) := fun x y =>
  match x, y with
  | .error a, .error b =>
    if h : a = b then isTrue (by rw [h])
    else isFalse (by intro hc; injection hc with h2; exact h h2)
  | .ok a, .ok b =>
    if h : a = b then isTrue (by rw [h])
    else isFalse (by intro hc; injection hc with h2; exact h h2)
  | .error _, .ok _ => isFalse (by intro hc; exact Except.noConfusion hc)
  | .ok _, .error _ => isFalse (by intro hc; exact Except.noConfusion hc)

instance {ε α : Type} [DecidableEq ε] [DecidableEq α] : DecidableEq (Except ε α) :=
  exceptDecEq

/-- The successful value of a computation, forgetting which error occurred. -/
def okValue {ε α : Type} : Except ε α → Option α
  | .ok a => some a
  | .error _ => none

/-! ## `core/models.py`: `Wallet` -/

/-- `Wallet`: one currency wallet (`core/models.py`).  `balance` is kept
non-negative by the constructor and by `withdraw`. -/
structure Wallet where
  currency_code : String
  balance : Rat
  deriving DecidableEq, Repr

/-- `Wallet.__init__`: validates a non-empty code (normalised to upper case)
and a non-negative balance; raises `ValueError` otherwise. -/
def Wallet.make (code : String) (bal : Rat) : Except Err Wallet :=
  if pyStrip code = "" then
    .error (.valueError "currency_code must be a non-empty string")
  else if bal < 0 then
    .error (.valueError "balance cannot be negative")
  else
    .ok ⟨pyUpper (pyStrip code), bal⟩

/-- `Wallet._ensure_positive_amount`: raises `ValueError` unless the amount
is strictly positive. -/
def ensurePositiveAmount (amount : Rat) : Except Err Rat :=
  if amount ≤ 0 then
    .error (.valueError "amount must be a positive number")
  else
    .ok amount

/-- `Wallet.deposit`. -/
def Wallet.deposit (w : Wallet) (amount : Rat) : Except Err Wallet :=
  match ensurePositiveAmount amount with
  | .error e => .error e
  | .ok a => .ok { w with balance := w.balance + a }

/-- `Wallet.withdraw` (`core/models.py` lines 166-173): raises `ValueError`
for a non-positive amount; raises a `ValueError` whose message interpolates
the current balance, the requested amount and the currency code when the
amount exceeds the balance; else debits the balance. -/
def Wallet.withdraw (w : Wallet) (amount : Rat) : Except Err Wallet :=
  match ensurePositiveAmount amount with
  | .error e => .error e
  | .ok a =>
    if w.balance < a then
      .error (.walletValueError w.balance a w.currency_code)
    else
      .ok { w with balance := w.balance - a }

/-! ## `core/currencies.py`: the currency registry -/

/-- The pre-populated registry `_REGISTRY` of known currency codes. -/
def REGISTRY : List String := ["USD", "EUR", "BTC", "ETH"]

/-- `get_currency`: raises `CurrencyNotFoundError` for an empty or unknown
code, else returns the (normalised) code. -/
def get_currency (code : String) : Except Err String :=
  if pyStrip code = "" then .error (.currencyNotFound "")
  else
    let c := pyUpper (pyStrip code)
    if c ∈ REGISTRY then .ok c else .error (.currencyNotFound c)

/-! ## `core/usecases.py`: validators -/

/-- `_cur`: non-empty currency-code format check, normalising to upper case. -/
def cur (code : String) : Except Err String :=
  if pyStrip code = "" then
    .error (.valueError "currency code must be a non-empty string")
  else
    .ok (pyUpper (pyStrip code))

/-- `_pos_amount`: the amount must be a strictly positive number. -/
def posAmount (x : Rat) : Except Err Rat :=
  if x ≤ 0 then
    .error (.valueError "amount must be a positive number")
  else
    .ok x

/-- `_currency_ok` (`core/usecases.py` lines 283-286): raises `ValueError`
for `None` (modelled as `Option.none`) or a blank string, else normalises. -/
def currencyOk (code : Option String) : Except Err String :=
  match code with
  | none => .error (.valueError "unknown base currency")
  | some s =>
    if pyStrip s = "" then .error (.valueError "unknown base currency")
    else .ok (pyUpper (pyStrip s))

/-- Python truthiness of an optional string (`None` and `""` are falsy). -/
def pyTruthy (s : Option String) : Bool :=
  match s with
  | none => false
  | some str => decide (str ≠ "")

/-! ## Rates: `_get_rate_pair`, `_get_rate`, `_has_any_rate_for_base` -/

/-- One snapshot pair record: value of a `"CODE_CODE"` key in `rates.json`. -/
structure PairRec where
  rate : Rat
  updated_at : String
  deriving DecidableEq, Repr

/-- The flattened full view of `rates.json` produced by `_load_rates_full`
(the `source` / `last_refresh` metadata keys are already filtered out). -/
abbrev RatesFull := Dict PairRec

/-- `_get_rate_pair` (`core/usecases.py` lines 238-259) with the file read
(`_load_rates_full`) replaced by the `rates` parameter and the current time
by `now`: the self rate is `1.0`, else direct key `FRM_TO`, else the inverse
of `TO_FRM` when that rate is non-zero, else `ValueError`. -/
def getRatePair (now : String) (rates : RatesFull) (frm toC : String) :
    Except Err (Rat × String) :=
  let f := pyUpper (pyStrip frm)
  let t := pyUpper (pyStrip toC)
  if f = "" ∨ t = "" then
    .error (.valueError "currency codes must be non-empty strings")
  else if f = t then
    .ok (1, now)
  else
    match dlookup (f ++ "_" ++ t) rates with
    | some rec => .ok (rec.rate, rec.updated_at)
    | none =>
      match dlookup (t ++ "_" ++ f) rates with
      | some rec =>
        if rec.rate ≠ 0 then .ok (1 / rec.rate, rec.updated_at)
        else .error (.valueError ("rate " ++ f ++ " to " ++ t ++ " unavailable"))
      | none => .error (.valueError ("rate " ++ f ++ " to " ++ t ++ " unavailable"))

/-- Modelled from the spec: the reference resolution algorithm of section
4.3 (`resolve(from_code, to_code, snapshot)`), written exactly by the
specification text: `1.0` on equal codes, else the direct key, else the
non-zero inverse, else `RateUnavailable(from, to)`. -/
def specResolve (rates : RatesFull) (frm toC : String) : Except Err Rat :=
  if frm = toC then .ok 1
  else
    match dlookup (frm ++ "_" ++ toC) rates with
    | some rec => .ok rec.rate
    | none =>
      match dlookup (toC ++ "_" ++ frm) rates with
      | some rec =>
        if rec.rate ≠ 0 then .ok (1 / rec.rate)
        else .error (.rateUnavailable frm toC)
      | none => .error (.rateUnavailable frm toC)

/-- `_get_rate` (flat-map version used by `show_portfolio`). -/
def getRate (code base : String) (rates : Dict Rat) : Except Err Rat :=
  let c := pyUpper code
  let b := pyUpper base
  if c = b then .ok 1
  else
    match dlookup (c ++ "_" ++ b) rates with
    | some r => .ok r
    | none =>
      match dlookup (b ++ "_" ++ c) rates with
      | some r =>
        if r ≠ 0 then .ok (1 / r)
        else .error (.valueError ("no rate for pair " ++ c ++ " to " ++ b))
      | none => .error (.valueError ("no rate for pair " ++ c ++ " to " ++ b))

/-- `_has_any_rate_for_base`: some key starts with `BASE_` or ends with
`_BASE`. -/
def hasAnyRateForBase (base : String) (rates : Dict Rat) : Bool :=
  let b := pyUpper base
  rates.any fun kv =>
    listEndsWith ("_" ++ b).data kv.1.data || listStartsWith (b ++ "_").data kv.1.data

/-! ## Freshness: `_snapshot_epoch`, `_rates_are_fresh` -/

/-- The metadata of a raw snapshot that the freshness check reads:
`last_refresh_epoch` is `none` when the field is missing or not coercible to
`int`; `last_refresh` is the ISO string (empty when missing). -/
structure SnapMeta where
  last_refresh_epoch : Option Int
  last_refresh : String
  deriving DecidableEq, Repr

/-- The ISO fallback of `_snapshot_epoch`: strip the `last_refresh` string,
parse its first 19 characters (`parseIso` models
`time.mktime(time.strptime(ts, "%Y-%m-%dT%H:%M:%S"))`, with `none` for a
parse failure), and return `0` when nothing is usable. -/
def isoFallback (parseIso : String → Option Int) (s : String) : Int :=
  let ts := pyStrip s
  if ts = "" then 0
  else
    match parseIso (pyTake 19 ts) with
    | some t => t
    | none => 0

/-- `_snapshot_epoch` (`core/usecases.py` lines 37-54): prefer a positive
`last_refresh_epoch`, else fall back to parsing the ISO `last_refresh`. -/
def snapshotEpoch (parseIso : String → Option Int) (snap : SnapMeta) : Int :=
  match snap.last_refresh_epoch with
  | some e => if 0 < e then e else isoFallback parseIso snap.last_refresh
  | none => isoFallback parseIso snap.last_refresh

/-- `_rates_are_fresh` (`core/usecases.py` lines 57-62). -/
def ratesAreFresh (parseIso : String → Option Int) (now : Int) (snap : SnapMeta)
    (ttl : Int) : Bool :=
  let e := snapshotEpoch parseIso snap
  if e ≤ 0 then false else decide (now - e ≤ ttl)

/-! ## `parser_service/updater.py`: `RatesUpdater.run_update` -/

/-- A JSON value stored at top level in `rates.json`: either a pair record
(a dict containing `"rate"`), or string / integer metadata
(`source`, `last_refresh`, `last_refresh_epoch`). -/
inductive SnapVal : Type where
  | pair (rec : PairRec)
  | meta (s : String)
  | metaInt (n : Int)
  deriving DecidableEq, Repr

/-- The raw `rates.json` object. -/
abbrev RawSnapshot := Dict SnapVal

/-- Extract the pair records of a raw snapshot (the entries `v` with
`isinstance(v, dict) and "rate" in v`), as done both for `prev_pairs` in
`run_update` and for the `pairs` of a history record. -/
def snapshotPairs (raw : RawSnapshot) : Dict PairRec :=
  raw.filterMap fun kv =>
    match kv.2 with
    | .pair rec => some (kv.1, rec)
    | _ => none

/-- The outcome of one API client in `run_update`: either the client raised
(or returned a non-dict) and was logged and skipped, or it returned a
pair-to-rate dict. -/
inductive FetchResult : Type where
  | failure
  | success (data : Dict Rat)
  deriving DecidableEq, Repr

/-- Fold one fetched dict into the accumulated flat dict
(`for k, v in data.items(): new_flat[k] = float(v)`). -/
def mergeFetch (acc : Dict Rat) (data : Dict Rat) : Dict Rat :=
  data.foldl (fun a kv => dinsert kv.1 kv.2 a) acc

/-- `new_flat`: merge the successful fetches in client order; later clients
overwrite earlier ones on key collision. -/
def newFlat (fetches : List FetchResult) : Dict Rat :=
  fetches.foldl
    (fun acc f =>
      match f with
      | .failure => acc
      | .success data => mergeFetch acc data)
    []

/-- `any_success`: some client returned a non-empty dict. -/
def anySuccess (fetches : List FetchResult) : Bool :=
  fetches.any fun f =>
    match f with
    | .failure => false
    | .success data => !data.isEmpty

/-- All key-rate items of the successful fetches, in client order. -/
def flatItems : List FetchResult → List (String × Rat)
  | [] => []
  | .failure :: tl => flatItems tl
  | .success data :: tl => data ++ flatItems tl

/-- The merged snapshot built by a successful `run_update`. -/
structure MergedSnapshot where
  pairs : Dict PairRec
  source : String
  last_refresh : String
  last_refresh_epoch : Int
  deriving DecidableEq, Repr

/-- Step 3 of `run_update`: carry the previous pairs forward verbatim, then
overlay the new pairs with `updated_at = now_iso`. -/
def buildLatest (nowIso : String) (prev : Dict PairRec) (flat : Dict Rat) :
    Dict PairRec :=
  flat.foldl (fun acc kv => dinsert kv.1 ⟨kv.2, nowIso⟩ acc) prev

/-- `RatesUpdater.run_update` (`parser_service/updater.py` lines 50-138),
with the clock passed as `nowIso` / `nowEpoch` and the client calls already
performed (`fetches`): fails with `ApiRequestError` when no client produced
data, else returns the merged snapshot with refresh metadata stamped. -/
def run_update (nowIso : String) (nowEpoch : Int) (prevRaw : RawSnapshot)
    (fetches : List FetchResult) : Except Err MergedSnapshot :=
  let prevPairs := snapshotPairs prevRaw
  let flat := newFlat fetches
  if !anySuccess fetches || flat.isEmpty then
    .error (.apiRequestError "could not get rates from any source")
  else
    .ok ⟨buildLatest nowIso prevPairs flat, "ParserService", nowIso, nowEpoch⟩

/-- Serialise a merged snapshot back to the raw `rates.json` shape. -/
def MergedSnapshot.toRaw (s : MergedSnapshot) : RawSnapshot :=
  (s.pairs.map fun kv => (kv.1, SnapVal.pair kv.2))
    ++ [("source", SnapVal.meta s.source),
        ("last_refresh", SnapVal.meta s.last_refresh),
        ("last_refresh_epoch", SnapVal.metaInt s.last_refresh_epoch)]

/-- `run_update` together with its storage effect: the state is the content
of the rates file (`none` when the file does not exist or cannot be read;
`run_update` then starts from `prev_snapshot = {}`).  On failure the file is
left untouched; on success the merged snapshot is written. -/
def runUpdateWithStorage (nowIso : String) (nowEpoch : Int)
    (st : Option RawSnapshot) (fetches : List FetchResult) :
    Option RawSnapshot × Except Err MergedSnapshot :=
  let prevRaw := st.getD []
  match run_update nowIso nowEpoch prevRaw fetches with
  | .error e => (st, .error e)
  | .ok snap => (some snap.toRaw, .ok snap)

/-! ## File writes: `_save_json` and `RatesStorage.write_rates_snapshot` -/

/-- A write of one whole JSON file.  `inPlaceWrite` models
`open(path, "w")` followed by `json.dump` - the target file itself is
truncated and rewritten, so a concurrent reader can observe a partial file;
`tempWriteRename` models the write-to-temp-then-atomic-rename discipline
(not used anywhere in the source). -/
inductive WriteOp (α : Type) : Type where
  | inPlaceWrite (path : String) (data : α)
  | tempWriteRename (path : String) (data : α)
  deriving DecidableEq, Repr

/-- `true` only for a write performed as an atomic temp-then-rename
replacement. -/
def WriteOp.isAtomicReplace {α : Type} : WriteOp α → Bool
  | .inPlaceWrite _ _ => false
  | .tempWriteRename _ _ => true

/-- `_save_json` (`core/usecases.py` lines 86-88): one in-place write of the
target file. -/
def save_json {α : Type} (path : String) (data : α) : List (WriteOp α) :=
  [.inPlaceWrite path data]

/-- One record of the history file (`exchange_rates.json`). -/
structure HistoryRecord where
  ts : String
  source : String
  pairs : Dict PairRec
  deriving DecidableEq, Repr

/-- The contents written by the parser-service storage: either the rates
snapshot file or the history file. -/
inductive ParserFileData : Type where
  | snap (s : RawSnapshot)
  | hist (h : List HistoryRecord)
  deriving DecidableEq, Repr

/-- Python `str(...)` of a raw snapshot value (only string and integer
metadata occur at the keys this is applied to). -/
def snapvalStr : SnapVal → String
  | .meta s => s
  | .metaInt n => toString n
  | .pair _ => ""

/-- `ts` of the history record: `latest.get("last_refresh") or now`. -/
def historyTs (nowIso : String) (latest : RawSnapshot) : String :=
  match dlookup "last_refresh" latest with
  | some v => let s := snapvalStr v; if s = "" then nowIso else s
  | none => nowIso

/-- `source` of the history record: `latest.get("source", "ParserService")`. -/
def historySource (latest : RawSnapshot) : String :=
  match dlookup "source" latest with
  | some v => snapvalStr v
  | none => "ParserService"

/-- `RatesStorage.append_history`: append one record and rewrite the history
file in place. -/
def append_history (nowIso histPath : String) (latest : RawSnapshot)
    (prevHistory : List HistoryRecord) : List (WriteOp ParserFileData) :=
  [.inPlaceWrite histPath
    (.hist (prevHistory ++
      [⟨historyTs nowIso latest, historySource latest, snapshotPairs latest⟩]))]

/-- `RatesStorage.write_rates_snapshot` (`parser_service/storage.py` lines
61-73): rewrite the snapshot file in place, then append to the history. -/
def write_rates_snapshot (nowIso snapPath histPath : String)
    (latest : RawSnapshot) (prevHistory : List HistoryRecord) :
    List (WriteOp ParserFileData) :=
  .inPlaceWrite snapPath (.snap latest)
    :: append_history nowIso histPath latest prevHistory

/-! ## Portfolio storage (`_load_user_portfolio`, `_save_user_portfolio`) -/

/-- The path constants of `core/usecases.py` (default settings). -/
def PORTFOLIOS_PATH : String := "data/portfolios.json"

/-- Wallets of one user as stored in `portfolios.json`: currency code to
balance (the `{"balance": x}` wrapper is collapsed to the number). -/
abbrev Wallets := Dict Rat

/-- One entry of the portfolios file. -/
structure PortEntry where
  user_id : Int
  wallets : Wallets
  deriving DecidableEq, Repr

/-- The whole `portfolios.json` array. -/
abbrev Portfolios := List PortEntry

/-- `_load_user_portfolio`: wallets of the first entry with this `user_id`,
else `{}`. -/
def loadUserPortfolio (uid : Int) (ports : Portfolios) : Wallets :=
  match ports.find? (fun p => decide (p.user_id = uid)) with
  | some p => p.wallets
  | none => []

/-- `_save_user_portfolio`: replace the wallets of the first entry with this
`user_id`, else append a new entry. -/
def saveUserPortfolio (uid : Int) (w : Wallets) : Portfolios → Portfolios
  | [] => [⟨uid, w⟩]
  | p :: rest =>
    if p.user_id = uid then { p with wallets := w } :: rest
    else p :: saveUserPortfolio uid w rest

/-! ## Sessions -/

/-- The session file content (`{"user_id": ..., "username": ...}`);
`none` models a missing or malformed session. -/
structure Session where
  user_id : Int
  username : String
  deriving DecidableEq, Repr

/-- `_require_session`: raises `ValueError` when nobody is logged in. -/
def requireSession (sess : Option Session) : Except Err Session :=
  match sess with
  | some s => .ok s
  | none => .error (.valueError "log in first")

/-! ## `buy` and `sell` (`core/usecases.py` lines 396-494) -/

/-- `buy(currency, amount)`: the file reads are passed as parameters
(`rates` for `rates.json`, `ports` for `portfolios.json`, `sess` for the
session) and the result is the updated portfolios array together with the
write operations performed. -/
def buy (now : String) (rates : RatesFull) (sess : Option Session)
    (ports : Portfolios) (currency : String) (amount : Rat) :
    Except Err (Portfolios × List (WriteOp Portfolios)) :=
  match requireSession sess with
  | .error e => .error e
  | .ok s =>
    match cur currency with
    | .error e => .error e
    | .ok code =>
      match get_currency code with
      | .error e => .error e
      | .ok _ =>
        match posAmount amount with
        | .error e => .error e
        | .ok amt =>
          let wallets := loadUserPortfolio s.user_id ports
          let prevCode := (dlookup code wallets).getD 0
          let prevUsd := (dlookup "USD" wallets).getD 0
          match getRatePair now rates code "USD" with
          | .error _ =>
            .error (.valueError ("could not get rate for " ++ code ++ " to USD"))
          | .ok (rate, _ts) =>
            let cost := amt * rate
            if prevUsd < cost then
              .error (.insufficientFunds prevUsd cost "USD")
            else
              match Wallet.make code prevCode with
              | .error e => .error e
              | .ok wCode =>
                match Wallet.make "USD" prevUsd with
                | .error e => .error e
                | .ok wUsd =>
                  match wCode.deposit amt with
                  | .error e => .error e
                  | .ok wCode2 =>
                    match wUsd.withdraw cost with
                    | .error e => .error e
                    | .ok wUsd2 =>
                      let wallets2 :=
                        dinsert "USD" wUsd2.balance
                          (dinsert code wCode2.balance wallets)
                      let ports2 := saveUserPortfolio s.user_id wallets2 ports
                      .ok (ports2, save_json PORTFOLIOS_PATH ports2)

/-- `sell(currency, amount)`: same conventions as `buy`.  Selling `USD` is
rejected up front; the balance check precedes the rate lookup. -/
def sell (now : String) (rates : RatesFull) (sess : Option Session)
    (ports : Portfolios) (currency : String) (amount : Rat) :
    Except Err (Portfolios × List (WriteOp Portfolios)) :=
  match requireSession sess with
  | .error e => .error e
  | .ok s =>
    match cur currency with
    | .error e => .error e
    | .ok code =>
      if code = "USD" then
        .error (.valueError "selling USD is not supported; pick another currency")
      else
        match get_currency code with
        | .error e => .error e
        | .ok _ =>
          match posAmount amount with
          | .error e => .error e
          | .ok amt =>
            let wallets := loadUserPortfolio s.user_id ports
            let prevCode := (dlookup code wallets).getD 0
            let prevUsd := (dlookup "USD" wallets).getD 0
            if prevCode < amt then
              .error (.insufficientFunds prevCode amt code)
            else
              match getRatePair now rates code "USD" with
              | .error _ =>
                .error (.valueError ("could not get rate for " ++ code ++ " to USD"))
              | .ok (rate, _ts) =>
                let revenue := amt * rate
                match Wallet.make code prevCode with
                | .error e => .error e
                | .ok wCode =>
                  match Wallet.make "USD" prevUsd with
                  | .error e => .error e
                  | .ok wUsd =>
                    match wCode.withdraw amt with
                    | .error e => .error e
                    | .ok wCode2 =>
                      match wUsd.deposit revenue with
                      | .error e => .error e
                      | .ok wUsd2 =>
                        let wallets2 :=
                          dinsert "USD" wUsd2.balance
                            (dinsert code wCode2.balance wallets)
                        let ports2 := saveUserPortfolio s.user_id wallets2 ports
                        .ok (ports2, save_json PORTFOLIOS_PATH ports2)

/-! ## `show_portfolio` (`core/usecases.py` lines 344-393) -/

/-- The non-error outcomes of `show_portfolio`: the no-wallets message, or a
report with one line per wallet `(code, balance, value in base)` plus the
total (number formatting is presentation and not modelled). -/
inductive PortView : Type where
  | noWallets
  | report (base : String) (lines : List (String × Rat × Rat)) (total : Rat)
  deriving DecidableEq, Repr

/-- Insert one wallet into a key-sorted list (`sorted(wallets.keys())`). -/
def insertSorted (kv : String × Rat) : List (String × Rat) → List (String × Rat)
  | [] => [kv]
  | hd :: tl =>
    if strLe kv.1 hd.1 then kv :: hd :: tl else hd :: insertSorted kv tl

/-- The wallets in ascending key order. -/
def sortByKey (d : Dict Rat) : List (String × Rat) :=
  d.foldr insertSorted []

/-- The conversion loop of `show_portfolio`: one line per wallet in order;
the first `ValueError` from `_get_rate` propagates. -/
def valueLines (base : String) (rates : Dict Rat) :
    List (String × Rat) → Except Err (List (String × Rat × Rat))
  | [] => .ok []
  | (code, bal) :: rest =>
    match getRate (pyUpper (pyStrip code)) base rates with
    | .error e => .error e
    | .ok r =>
      match valueLines base rates rest with
      | .error e => .error e
      | .ok tl => .ok ((pyUpper (pyStrip code), bal, bal * r) :: tl)

/-- `show_portfolio(base_currency)` (`core/usecases.py` lines 344-393).  The
default base from the settings singleton is `defaultBase`; `base_currency`
is the optional CLI argument (`none` models Python `None`).  Note the source
computes the base with the default fallback first (line 350) and then
re-validates the original argument (line 357). -/
def show_portfolio (defaultBase : String) (rates : Dict Rat)
    (sess : Option Session) (ports : Portfolios)
    (base_currency : Option String) : Except Err PortView :=
  match requireSession sess with
  | .error e => .error e
  | .ok s =>
    match currencyOk
        (if pyTruthy base_currency then base_currency else some defaultBase) with
    | .error e => .error e
    | .ok _base1 =>
      let wallets := loadUserPortfolio s.user_id ports
      if wallets.isEmpty then
        .ok .noWallets
      else
        match currencyOk base_currency with
        | .error e => .error e
        | .ok base =>
          if wallets.all fun kv => decide (pyUpper (pyStrip kv.1) = base) then
            let sw := sortByKey wallets
            .ok (.report base (sw.map fun kv => (kv.1, kv.2, kv.2))
              (sw.foldl (fun t kv => t + kv.2) 0))
          else if !hasAnyRateForBase base rates then
            .error (.valueError ("unknown base currency " ++ base))
          else
            match valueLines base rates (sortByKey wallets) with
            | .error e => .error e
            | .ok lines =>
              .ok (.report base lines
                (lines.foldl (fun t l => t + l.2.2) 0))

/-! ## Helper lemmas about dictionaries and option joins -/

theorem opt_or_none {α : Type} (a : Option α) : a.or none = a := by
  cases a <;> rfl

theorem opt_or_assoc {α : Type} (a b c : Option α) :
    (a.or b).or c = a.or (b.or c) := by
  cases a <;> rfl

theorem dlookup_dinsert {α : Type} (k k' : String) (v : α) (d : Dict α) :
    dlookup k (dinsert k' v d) = if k' = k then some v else dlookup k d := by
  induction d with
  | nil => simp [dinsert, dlookup]
  | cons hd tl ih =>
    obtain ⟨a, b⟩ := hd
    by_cases h : a = k'
    · subst h
      by_cases h2 : a = k <;> simp [dinsert, dlookup, h2]
    · by_cases h2 : a = k
      · subst h2
        have : ¬(k' = a) := fun hc => h hc.symm
        simp [dinsert, dlookup, h, this]
      · simp [dinsert, dlookup, h, h2, ih]

theorem dinsert_ne_nil {α : Type} (k : String) (v : α) (d : Dict α) :
    dinsert k v d ≠ [] := by
  cases d with
  | nil => simp [dinsert]
  | cons hd tl => rw [dinsert]; split <;> simp

theorem lastLookup_append {α : Type} (k : String) (l1 l2 : List (String × α)) :
    lastLookup k (l1 ++ l2) = (lastLookup k l2).or (lastLookup k l1) := by
  induction l1 with
  | nil => simp [lastLookup, opt_or_none]
  | cons hd tl ih =>
    show (lastLookup k (tl ++ l2)).or _ = _
    rw [ih, opt_or_assoc]
    rfl

theorem lastLookup_eq_none_of_not_mem {α : Type} (k : String) (d : Dict α)
    (h : k ∉ dkeys d) : lastLookup k d = none := by
  induction d with
  | nil => rfl
  | cons hd tl ih =>
    simp only [dkeys, List.map_cons, List.mem_cons] at h
    push_neg at h
    show (lastLookup k tl).or _ = none
    rw [ih (by simpa [dkeys] using h.2)]
    have : ¬(hd.1 = k) := fun hc => h.1 hc.symm
    simp [this]

theorem lastLookup_eq_dlookup {α : Type} (k : String) (d : Dict α)
    (h : (dkeys d).Nodup) : lastLookup k d = dlookup k d := by
  induction d with
  | nil => rfl
  | cons hd tl ih =>
    simp only [dkeys, List.map_cons, List.nodup_cons] at h
    by_cases hk : hd.1 = k
    · have hn : lastLookup k tl = none := by
        apply lastLookup_eq_none_of_not_mem
        rw [← hk]
        exact fun hc => h.1 (by simpa [dkeys] using hc)
      show (lastLookup k tl).or _ = _
      rw [hn]
      simp [dlookup, hk]
    · show (lastLookup k tl).or _ = _
      rw [ih (by simpa [dkeys] using h.2)]
      simp [dlookup, hk, opt_or_none]

theorem mem_dkeys_dinsert {α : Type} (x k : String) (v : α) (d : Dict α) :
    x ∈ dkeys (dinsert k v d) ↔ x = k ∨ x ∈ dkeys d := by
  induction d with
  | nil => simp [dinsert, dkeys]
  | cons hd tl ih =>
    by_cases h : hd.1 = k
    · rw [dinsert, if_pos h]
      simp only [dkeys, List.map_cons, List.mem_cons]
      rw [← h]
      tauto
    · rw [dinsert, if_neg h]
      simp only [dkeys, List.map_cons, List.mem_cons] at *
      rw [ih]
      tauto

theorem dkeys_nodup_dinsert {α : Type} (k : String) (v : α) (d : Dict α)
    (h : (dkeys d).Nodup) : (dkeys (dinsert k v d)).Nodup := by
  induction d with
  | nil => simp [dinsert, dkeys]
  | cons hd tl ih =>
    simp only [dkeys, List.map_cons, List.nodup_cons] at h
    by_cases hk : hd.1 = k
    · rw [dinsert, if_pos hk]
      simp only [dkeys, List.map_cons, List.nodup_cons]
      exact ⟨by simpa [dkeys] using h.1, by simpa [dkeys] using h.2⟩
    · rw [dinsert, if_neg hk]
      simp only [dkeys, List.map_cons, List.nodup_cons]
      constructor
      · intro hc
        rw [show (tl.map Prod.fst : List String) = dkeys tl from rfl,
          show ((dinsert k v tl).map Prod.fst : List String) = dkeys (dinsert k v tl) from rfl]
          at *
        rcases (mem_dkeys_dinsert hd.1 k v tl).mp hc with h1 | h2
        · exact hk h1
        · exact h.1 h2
      · exact ih (by simpa [dkeys] using h.2)

/-! ## Helper lemmas about the updater folds -/

theorem dlookup_mergeFetch (data : Dict Rat) :
    ∀ (acc : Dict Rat) (k : String),
    dlookup k (mergeFetch acc data) = (lastLookup k data).or (dlookup k acc) := by
  induction data with
  | nil => intro acc k; simp [mergeFetch, lastLookup]
  | cons hd tl ih =>
    intro acc k
    show dlookup k (mergeFetch (dinsert hd.1 hd.2 acc) tl) = _
    rw [ih, dlookup_dinsert]
    show _ = ((lastLookup k tl).or (if hd.1 = k then some hd.2 else none)).or _
    rw [opt_or_assoc]
    congr 1
    by_cases h : hd.1 = k <;> simp [h]

theorem dkeys_nodup_mergeFetch (data : Dict Rat) :
    ∀ acc : Dict Rat, (dkeys acc).Nodup → (dkeys (mergeFetch acc data)).Nodup := by
  induction data with
  | nil => intro acc h; exact h
  | cons hd tl ih =>
    intro acc h
    show (dkeys (mergeFetch (dinsert hd.1 hd.2 acc) tl)).Nodup
    exact ih _ (dkeys_nodup_dinsert _ _ _ h)

theorem mergeFetch_eq_nil (data : Dict Rat) :
    ∀ acc : Dict Rat, mergeFetch acc data = [] → acc = [] ∧ data = [] := by
  induction data with
  | nil => intro acc h; exact ⟨h, rfl⟩
  | cons hd tl ih =>
    intro acc h
    have h2 := ih (dinsert hd.1 hd.2 acc) h
    exact absurd h2.1 (dinsert_ne_nil _ _ _)

theorem flatItems_append (fs1 fs2 : List FetchResult) :
    flatItems (fs1 ++ fs2) = flatItems fs1 ++ flatItems fs2 := by
  induction fs1 with
  | nil => rfl
  | cons hd tl ih =>
    cases hd with
    | failure => simpa [flatItems] using ih
    | success data => simp [flatItems, ih]

theorem dlookup_fetch_foldl (k : String) :
    ∀ (fetches : List FetchResult) (acc : Dict Rat),
    dlookup k (fetches.foldl
      (fun acc f =>
        match f with
        | .failure => acc
        | .success data => mergeFetch acc data) acc)
      = (lastLookup k (flatItems fetches)).or (dlookup k acc) := by
  intro fetches
  induction fetches with
  | nil => intro acc; simp [flatItems, lastLookup]
  | cons hd tl ih =>
    intro acc
    cases hd with
    | failure =>
      rw [List.foldl_cons]
      exact ih acc
    | success data =>
      rw [List.foldl_cons]
      show dlookup k (tl.foldl _ (mergeFetch acc data)) = _
      rw [ih, dlookup_mergeFetch]
      rw [show flatItems (.success data :: tl) = data ++ flatItems tl from rfl,
        lastLookup_append, opt_or_assoc]

theorem dlookup_newFlat (k : String) (fetches : List FetchResult) :
    dlookup k (newFlat fetches) = lastLookup k (flatItems fetches) := by
  have h := dlookup_fetch_foldl k fetches []
  rw [show (dlookup k ([] : Dict Rat)) = none from rfl, opt_or_none] at h
  exact h

theorem dkeys_nodup_newFlat (fetches : List FetchResult) :
    (dkeys (newFlat fetches)).Nodup := by
  have aux : ∀ (fs : List FetchResult) (acc : Dict Rat), (dkeys acc).Nodup →
      (dkeys (fs.foldl
        (fun acc f =>
          match f with
          | .failure => acc
          | .success data => mergeFetch acc data) acc)).Nodup := by
    intro fs
    induction fs with
    | nil => intro acc h; exact h
    | cons hd tl ih =>
      intro acc h
      cases hd with
      | failure => rw [List.foldl_cons]; exact ih acc h
      | success data =>
        rw [List.foldl_cons]
        exact ih _ (dkeys_nodup_mergeFetch data acc h)
  exact aux fetches [] (by simp [dkeys])

theorem fetch_foldl_eq_nil :
    ∀ (fetches : List FetchResult) (acc : Dict Rat),
    fetches.foldl
      (fun acc f =>
        match f with
        | .failure => acc
        | .success data => mergeFetch acc data) acc = [] →
    acc = [] ∧ anySuccess fetches = false := by
  intro fetches
  induction fetches with
  | nil => intro acc h; exact ⟨h, rfl⟩
  | cons hd tl ih =>
    intro acc h
    cases hd with
    | failure =>
      rw [List.foldl_cons] at h
      have h2 := ih acc h
      refine ⟨h2.1, ?_⟩
      simpa [anySuccess] using h2.2
    | success data =>
      rw [List.foldl_cons] at h
      have h2 := ih (mergeFetch acc data) h
      have h3 := mergeFetch_eq_nil data acc h2.1
      refine ⟨h3.1, ?_⟩
      rw [h3.2]
      simpa [anySuccess] using h2.2

theorem newFlat_ne_nil (fetches : List FetchResult)
    (hs : anySuccess fetches = true) : newFlat fetches ≠ [] := by
  intro h
  have h2 := fetch_foldl_eq_nil fetches [] h
  rw [h2.2] at hs
  exact Bool.noConfusion hs

theorem anySuccess_eq_false (fetches : List FetchResult)
    (hall : ∀ f ∈ fetches, f = FetchResult.failure ∨ f = FetchResult.success []) :
    anySuccess fetches = false := by
  induction fetches with
  | nil => rfl
  | cons hd tl ih =>
    have htl := ih (fun f hf => hall f (List.mem_cons_of_mem hd hf))
    rcases hall hd (List.mem_cons_self hd tl) with rfl | rfl
    · simpa [anySuccess] using htl
    · simpa [anySuccess] using htl

theorem dlookup_buildLatest (nowIso : String) (flat : Dict Rat) :
    ∀ (prev : Dict PairRec) (k : String),
    dlookup k (buildLatest nowIso prev flat)
      = ((lastLookup k flat).map fun r => PairRec.mk r nowIso).or (dlookup k prev) := by
  induction flat with
  | nil => intro prev k; simp [buildLatest, lastLookup]
  | cons hd tl ih =>
    intro prev k
    show dlookup k (buildLatest nowIso (dinsert hd.1 ⟨hd.2, nowIso⟩ prev) tl) = _
    rw [ih, dlookup_dinsert]
    show _ = (((lastLookup k tl).or (if hd.1 = k then some hd.2 else none)).map _).or _
    rw [show ∀ (a b : Option Rat) (f : Rat → PairRec), (a.or b).map f = (a.map f).or (b.map f) by
      intro a b f; cases a <;> rfl]
    rw [opt_or_assoc]
    congr 1
    by_cases h : hd.1 = k <;> simp [h]

/-! ## Helper lemma for the portfolio file -/

theorem loadUserPortfolio_save (uid : Int) (w : Wallets) (ports : Portfolios) :
    loadUserPortfolio uid (saveUserPortfolio uid w ports) = w := by
  induction ports with
  | nil => simp [saveUserPortfolio, loadUserPortfolio, List.find?]
  | cons p rest ih =>
    by_cases h : p.user_id = uid
    · rw [saveUserPortfolio, if_pos h, loadUserPortfolio,
        List.find?_cons_of_pos _ (by simpa using h)]
    · rw [saveUserPortfolio, if_neg h, loadUserPortfolio,
        List.find?_cons_of_neg _ (by simpa using h)]
      exact ih

/-! ## Claim C4: `Wallet.withdraw` -/

/-- C4 counterexample: at wallet `(USD, 5)` and amount `10`, `withdraw` does
not fail with the `InsufficientFundsError(available, required, code)`
exception class of `core/exceptions.py`; it raises the plain `ValueError`
built inside `Wallet.withdraw` (whose message merely formats the same
numbers to 4 decimal places). -/
theorem withdraw_error_class_counterexample :
    Wallet.withdraw ⟨"USD", 5⟩ 10 = .error (.walletValueError 5 10 "USD") ∧
    (Except.error (Err.walletValueError 5 10 "USD") : Except Err Wallet)
      ≠ .error (.insufficientFunds 5 10 "USD") := by
  constructor
  · rfl
  · intro h
    injection h with h2
    exact Err.noConfusion h2

/-- C4 (amended): `withdraw(w, amount)` never leaves the balance negative:
it fails with `ValueError` (invalid amount) when `amount ≤ 0`; when
`amount > balance` it fails with the `ValueError` raised inside
`Wallet.withdraw` carrying the pre-call balance, the requested amount and
the currency code (not with the `InsufficientFundsError` class), leaving the
wallet untouched; otherwise it decreases the balance by exactly `amount`,
which is then non-negative. -/
theorem withdraw_correct (w : Wallet) (amount : Rat) :
    (amount ≤ 0 →
      Wallet.withdraw w amount
        = .error (.valueError "amount must be a positive number")) ∧
    (0 < amount → w.balance < amount →
      Wallet.withdraw w amount
        = .error (.walletValueError w.balance amount w.currency_code)) ∧
    (0 < amount → amount ≤ w.balance →
      Wallet.withdraw w amount = .ok ⟨w.currency_code, w.balance - amount⟩) ∧
    (∀ w' : Wallet, Wallet.withdraw w amount = .ok w' →
      w'.balance = w.balance - amount ∧ 0 ≤ w'.balance) := by
  refine ⟨?_, ?_, ?_, ?_⟩
  · intro h
    simp [Wallet.withdraw, ensurePositiveAmount, h]
  · intro h1 h2
    simp [Wallet.withdraw, ensurePositiveAmount, not_le.mpr h1, h2]
  · intro h1 h2
    simp [Wallet.withdraw, ensurePositiveAmount, not_le.mpr h1, not_lt.mpr h2]
  · intro w' hok
    by_cases h : amount ≤ 0
    · simp [Wallet.withdraw, ensurePositiveAmount, h] at hok
    · by_cases h2 : w.balance < amount
      · simp [Wallet.withdraw, ensurePositiveAmount, h, h2] at hok
      · simp [Wallet.withdraw, ensurePositiveAmount, h, h2] at hok
        rw [← hok]
        refine ⟨rfl, ?_⟩
        simp only [not_lt] at h2
        simp
        linarith

/-- C4 witness: a concrete successful withdrawal and a concrete failing one,
via `withdraw_correct`. -/
theorem withdraw_correct_witness :
    Wallet.withdraw ⟨"USD", 5⟩ 3 = .ok ⟨"USD", 5 - 3⟩ ∧
    Wallet.withdraw ⟨"USD", 5⟩ 10
      = .error (.walletValueError 5 10 "USD") := by
  refine ⟨(withdraw_correct ⟨"USD", 5⟩ 3).2.2.1 (by norm_num) (by norm_num), ?_⟩
  exact (withdraw_correct ⟨"USD", 5⟩ 10).2.1 (by norm_num) (by norm_num)

/-! ## Claim C8: freshness of the rates cache -/

/-- C8: the freshness check returns `true` iff the snapshot's refresh epoch
is usable (positive) and `now - epoch ≤ ttl`; the epoch is
`last_refresh_epoch` when positive, and falls back to parsing the ISO
`last_refresh` string when the field is missing or zero; an unusable epoch
means not fresh. -/
theorem rates_freshness_correct (parseIso : String → Option Int) (now ttl : Int)
    (snap : SnapMeta) :
    (ratesAreFresh parseIso now snap ttl = true ↔
      0 < snapshotEpoch parseIso snap ∧ now - snapshotEpoch parseIso snap ≤ ttl) ∧
    (∀ e : Int, snap.last_refresh_epoch = some e → 0 < e →
      snapshotEpoch parseIso snap = e) ∧
    ((snap.last_refresh_epoch = none ∨ snap.last_refresh_epoch = some 0) →
      snapshotEpoch parseIso snap = isoFallback parseIso snap.last_refresh) ∧
    (snapshotEpoch parseIso snap ≤ 0 →
      ratesAreFresh parseIso now snap ttl = false) := by
  refine ⟨?_, ?_, ?_, ?_⟩
  · by_cases h : snapshotEpoch parseIso snap ≤ 0
    · simp only [ratesAreFresh, if_pos h]
      constructor
      · intro hc; exact Bool.noConfusion hc
      · intro hc; omega
    · simp only [ratesAreFresh, if_neg h]
      rw [decide_eq_true_iff]
      constructor
      · intro hc; exact ⟨by omega, hc⟩
      · intro hc; exact hc.2
  · intro e he hpos
    simp [snapshotEpoch, he, hpos]
  · intro hcase
    rcases hcase with h | h <;> simp [snapshotEpoch, h]
  · intro h
    simp only [ratesAreFresh, if_pos h]

/-- C8 witness: with `now = 1000` and `last_refresh_epoch = 990` (ten
seconds old) the snapshot is fresh for `ttl = 300` and stale for `ttl = 5`. -/
theorem rates_freshness_correct_witness :
    ratesAreFresh (fun _ => none) 1000 ⟨some 990, ""⟩ 300 = true ∧
    ratesAreFresh (fun _ => none) 1000 ⟨some 990, ""⟩ 5 = false := by
  constructor
  · exact (rates_freshness_correct (fun _ => none) 1000 300 ⟨some 990, ""⟩).1.mpr
      (by constructor <;> decide)
  · decide

/-! ## Claim C5: all sources failed -/

/-- C5: when every source fails or returns nothing, `run_update` raises the
no-rates error (realised in the source as
`ApiRequestError("Не удалось получить курсы ни от одного источника")`, the
error the specification calls `NoRatesAvailable`) and the stored snapshot
file is left exactly as it was: no write happens at all. -/
theorem run_update_all_sources_failed (nowIso : String) (nowEpoch : Int)
    (st : Option RawSnapshot) (fetches : List FetchResult)
    (hall : ∀ f ∈ fetches, f = FetchResult.failure ∨ f = FetchResult.success []) :
    runUpdateWithStorage nowIso nowEpoch st fetches
      = (st, .error (.apiRequestError "could not get rates from any source")) := by
  have hs := anySuccess_eq_false fetches hall
  simp [runUpdateWithStorage, run_update, hs]

/-- C5 witness: one raising client and one client returning an empty dict
leave a concrete stored snapshot untouched. -/
theorem run_update_all_sources_failed_witness :
    runUpdateWithStorage "T1" 100 (some [("BTC_USD", .pair ⟨2, "T0"⟩)])
      [FetchResult.failure, FetchResult.success []]
      = (some [("BTC_USD", .pair ⟨2, "T0"⟩)],
         .error (.apiRequestError "could not get rates from any source")) :=
  run_update_all_sources_failed "T1" 100 (some [("BTC_USD", .pair ⟨2, "T0"⟩)])
    [FetchResult.failure, FetchResult.success []] (by decide)

/-! ## Claim C9: file writes are in place, not temp-then-rename -/

/-- C9 counterexample: a concrete portfolio save consists of exactly one
in-place write of the target file (`open(path, "w")` + `json.dump`), which
is not an atomic temp-then-rename replacement. -/
theorem save_in_place_counterexample :
    save_json "data/portfolios.json" ([⟨1, [("USD", 1000)]⟩] : Portfolios)
      = [WriteOp.inPlaceWrite "data/portfolios.json" [⟨1, [("USD", 1000)]⟩]] ∧
    WriteOp.isAtomicReplace
      (WriteOp.inPlaceWrite "data/portfolios.json"
        ([⟨1, [("USD", 1000)]⟩] : Portfolios)) = false :=
  ⟨rfl, rfl⟩

/-- C9 (amended): every write of the rate-cache file
(`RatesStorage.write_rates_snapshot`, which also appends the history file)
and of the portfolio file (`_save_json`) opens the target path in write mode
and rewrites it in place; no write anywhere is performed as
write-to-temp-then-atomic-rename. -/
theorem writes_in_place {α : Type} (path : String) (data : α)
    (nowIso snapPath histPath : String) (latest : RawSnapshot)
    (hist : List HistoryRecord) :
    save_json path data = [WriteOp.inPlaceWrite path data] ∧
    (∀ op ∈ save_json path data, op.isAtomicReplace = false) ∧
    write_rates_snapshot nowIso snapPath histPath latest hist
      = [WriteOp.inPlaceWrite snapPath (.snap latest),
         WriteOp.inPlaceWrite histPath (.hist (hist ++
           [⟨historyTs nowIso latest, historySource latest,
             snapshotPairs latest⟩]))] ∧
    (∀ op ∈ write_rates_snapshot nowIso snapPath histPath latest hist,
      op.isAtomicReplace = false) := by
  refine ⟨rfl, ?_, rfl, ?_⟩
  · intro op hop
    simp only [save_json, List.mem_singleton] at hop
    subst hop
    rfl
  · intro op hop
    simp only [write_rates_snapshot, append_history, List.mem_cons,
      List.mem_singleton, List.not_mem_nil, or_false] at hop
    rcases hop with rfl | rfl
    · rfl
    · rfl

/-! ## Claim C10: `show_portfolio` with no base argument -/

/-- C10: for a logged-in user with a non-empty portfolio,
`show_portfolio(None)` raises the `ValueError` of `_currency_ok` instead of
valuing the portfolio in the configured default base: line 350 applies the
default, but line 357 unconditionally re-validates the original `None`
argument, so the `DEFAULT_BASE_CURRENCY` fallback is unreachable whenever
wallets exist. -/
theorem show_portfolio_none_base_errors (defaultBase : String)
    (rates : Dict Rat) (uid : Int) (uname : String) (ports : Portfolios)
    (hd : pyStrip defaultBase ≠ "")
    (hw : loadUserPortfolio uid ports ≠ []) :
    show_portfolio defaultBase rates (some ⟨uid, uname⟩) ports none
      = .error (.valueError "unknown base currency") := by
  cases hwl : loadUserPortfolio uid ports with
  | nil => exact absurd hwl hw
  | cons p tl =>
    simp [show_portfolio, requireSession, pyTruthy, currencyOk, hd, hwl]

/-- C10 witness: a concrete user holding one USD wallet who calls
`show_portfolio` without a base argument. -/
theorem show_portfolio_none_base_errors_witness :
    show_portfolio "USD" [] (some ⟨1, "u"⟩) [⟨1, [("USD", 1000)]⟩] none
      = .error (.valueError "unknown base currency") :=
  show_portfolio_none_base_errors "USD" [] 1 "u" [⟨1, [("USD", 1000)]⟩]
    (by decide) (by decide)

/-! ## Claim C7: rate resolution -/

/-- C7 counterexample: in the snapshot `{A_B: 2, B_A: 5}` the pair `A_B → 2`
is present with `A ≠ B`, yet `resolve(B, A)` returns the stored direct rate
`5`, not the claimed inverse `1/2`. -/
theorem resolve_inversion_counterexample :
    (okValue (getRatePair "T" [("A_B", ⟨2, "T"⟩), ("B_A", ⟨5, "T"⟩)] "B" "A")).map
        Prod.fst
      = some (5 : Rat) ∧
    (5 : Rat) ≠ 1 / 2 := by
  constructor
  · rfl
  · norm_num

/-- C7 (amended): for non-empty (normalised) codes, `_get_rate_pair` agrees
with the reference resolution algorithm of the specification (`1.0` on equal
codes even when absent from the snapshot, else direct key, else non-zero
inverse, else failure); and for a snapshot containing `A_B → r` with
`A ≠ B`, `resolve(A, B) = r` always, while `resolve(B, A) = 1/r` holds
provided the snapshot has no direct `B_A` key and `r ≠ 0`.  Resolution is a
pure function of the snapshot. -/
theorem resolve_matches_spec (now : String) (rates : RatesFull)
    (frm toC : String)
    (hf : pyUpper (pyStrip frm) ≠ "") (ht : pyUpper (pyStrip toC) ≠ "") :
    ((okValue (getRatePair now rates frm toC)).map Prod.fst
      = okValue (specResolve rates (pyUpper (pyStrip frm)) (pyUpper (pyStrip toC)))) ∧
    (∀ (a b : String) (r : Rat) (ts : String),
      a ≠ b →
      dlookup (a ++ "_" ++ b) rates = some ⟨r, ts⟩ →
      pyStrip a = a → pyUpper a = a → pyStrip b = b → pyUpper b = b →
      a ≠ "" → b ≠ "" →
      ((okValue (getRatePair now rates a b)).map Prod.fst = some r ∧
       (dlookup (b ++ "_" ++ a) rates = none → r ≠ 0 →
        (okValue (getRatePair now rates b a)).map Prod.fst = some (1 / r)))) := by
  constructor
  · set f := pyUpper (pyStrip frm) with hfd
    set t := pyUpper (pyStrip toC) with htd
    have hor : ¬(f = "" ∨ t = "") := by
      intro hc; rcases hc with hc | hc
      · exact hf hc
      · exact ht hc
    by_cases hft : f = t
    · simp [getRatePair, specResolve, ← hfd, ← htd, hor, hft, hf, ht, okValue]
    · cases hdir : dlookup (f ++ "_" ++ t) rates with
      | some rec =>
        simp [getRatePair, specResolve, ← hfd, ← htd, hor, hft, hf, ht, hdir,
          okValue]
      | none =>
        cases hinv : dlookup (t ++ "_" ++ f) rates with
        | some rec =>
          by_cases hz : rec.rate = 0
          · simp [getRatePair, specResolve, ← hfd, ← htd, hor, hft, hf, ht,
              hdir, hinv, hz, okValue]
          · simp [getRatePair, specResolve, ← hfd, ← htd, hor, hft, hf, ht,
              hdir, hinv, hz, okValue]
        | none =>
          simp [getRatePair, specResolve, ← hfd, ← htd, hor, hft, hf, ht, hdir,
            hinv, okValue]
  · intro a b r ts hab hdir hsa hua hsb hub ha hb
    constructor
    · have hor : ¬(a = "" ∨ b = "") := by
        intro hc; rcases hc with hc | hc
        · exact ha hc
        · exact hb hc
      simp [getRatePair, hsa, hua, hsb, hub, hor, hab, hdir, okValue]
    · intro hnone hz
      have hor : ¬(b = "" ∨ a = "") := by
        intro hc; rcases hc with hc | hc
        · exact hb hc
        · exact ha hc
      have hba : ¬(b = a) := fun hc => hab hc.symm
      simp [getRatePair, hsa, hua, hsb, hub, hor, hba, hnone, hdir, hz, okValue]

/-- C7 witness: a whitespace-and-case-normalised direct lookup agrees with
the specification algorithm, and the inverse of a one-sided pair is the
reciprocal rate. -/
theorem resolve_matches_spec_witness :
    ((okValue (getRatePair "T" [("BTC_USD", ⟨50000, "T"⟩)] " btc " "USD")).map
        Prod.fst
      = okValue (specResolve [("BTC_USD", ⟨50000, "T"⟩)] "BTC" "USD")) ∧
    ((okValue (getRatePair "T" [("BTC_USD", ⟨50000, "T"⟩)] "USD" "BTC")).map
        Prod.fst
      = some (1 / 50000 : Rat)) := by
  have h := resolve_matches_spec "T" [("BTC_USD", ⟨50000, "T"⟩)] " btc " "USD"
    (by decide) (by decide)
  refine ⟨h.1, ?_⟩
  exact (h.2 "BTC" "USD" 50000 "T" (by decide) rfl rfl rfl rfl rfl (by decide)
    (by decide)).2 rfl (by norm_num)

/-! ## Claim C6: the merge of a successful aggregation run -/

/-- C6: when some source succeeded with data (others may have failed - that
does not abort the run), `run_update` succeeds and stamps the metadata; its
pair table maps every freshly fetched key to the fetched rate with
`observed_at = now`, leaves every other key exactly as in the previous
snapshot, and hence never loses a previously cached pair: each one survives
verbatim or is overwritten by a fresh value.  Across sources, the merged flat
dict is last-writer-wins in source iteration order. -/
theorem run_update_merge (nowIso : String) (nowEpoch : Int)
    (prevRaw : RawSnapshot) (fetches : List FetchResult)
    (hs : anySuccess fetches = true) :
    (∃ pairs : Dict PairRec,
      run_update nowIso nowEpoch prevRaw fetches
        = .ok ⟨pairs, "ParserService", nowIso, nowEpoch⟩ ∧
      (∀ (k : String) (r : Rat), dlookup k (newFlat fetches) = some r →
        dlookup k pairs = some ⟨r, nowIso⟩) ∧
      (∀ k : String, dlookup k (newFlat fetches) = none →
        dlookup k pairs = dlookup k (snapshotPairs prevRaw)) ∧
      (∀ (k : String) (rec : PairRec),
        dlookup k (snapshotPairs prevRaw) = some rec →
        ∃ v : PairRec, dlookup k pairs = some v ∧
          (v = rec ∨ v.updated_at = nowIso))) ∧
    (∀ (fs1 fs2 : List FetchResult) (k : String),
      dlookup k (newFlat (fs1 ++ fs2))
        = (dlookup k (newFlat fs2)).or (dlookup k (newFlat fs1))) := by
  constructor
  · refine ⟨buildLatest nowIso (snapshotPairs prevRaw) (newFlat fetches),
      ?_, ?_, ?_, ?_⟩
    · have hne := newFlat_ne_nil fetches hs
      have hie : (newFlat fetches).isEmpty = false := by
        cases hnf : newFlat fetches with
        | nil => exact absurd hnf hne
        | cons x l => rfl
      simp [run_update, hs, hie]
    · intro k r hk
      rw [dlookup_buildLatest,
        lastLookup_eq_dlookup k (newFlat fetches) (dkeys_nodup_newFlat fetches),
        hk]
      rfl
    · intro k hk
      rw [dlookup_buildLatest,
        lastLookup_eq_dlookup k (newFlat fetches) (dkeys_nodup_newFlat fetches),
        hk]
      rfl
    · intro k rec hrec
      cases hnf : dlookup k (newFlat fetches) with
      | some r =>
        refine ⟨⟨r, nowIso⟩, ?_, Or.inr rfl⟩
        rw [dlookup_buildLatest,
          lastLookup_eq_dlookup k (newFlat fetches) (dkeys_nodup_newFlat fetches),
          hnf]
        rfl
      | none =>
        refine ⟨rec, ?_, Or.inl rfl⟩
        rw [dlookup_buildLatest,
          lastLookup_eq_dlookup k (newFlat fetches) (dkeys_nodup_newFlat fetches),
          hnf]
        simpa using hrec
  · intro fs1 fs2 k
    rw [dlookup_newFlat, dlookup_newFlat, dlookup_newFlat, flatItems_append,
      lastLookup_append]

/-- C6 witness: one failing source plus one source returning `ETH_USD` merge
over a previous snapshot holding `BTC_USD`; the run succeeds, `ETH_USD`
carries the new timestamp, `BTC_USD` is carried forward verbatim. -/
theorem run_update_merge_witness :
    (∃ pairs : Dict PairRec,
      run_update "T2" 2 [("BTC_USD", .pair ⟨1, "T1"⟩), ("source", .meta "ParserService")]
          [FetchResult.failure, FetchResult.success [("ETH_USD", 10)]]
        = .ok ⟨pairs, "ParserService", "T2", 2⟩ ∧
      (∀ (k : String) (r : Rat),
        dlookup k (newFlat [FetchResult.failure,
          FetchResult.success [("ETH_USD", 10)]]) = some r →
        dlookup k pairs = some ⟨r, "T2"⟩) ∧
      (∀ k : String,
        dlookup k (newFlat [FetchResult.failure,
          FetchResult.success [("ETH_USD", 10)]]) = none →
        dlookup k pairs = dlookup k (snapshotPairs
          [("BTC_USD", .pair ⟨1, "T1"⟩), ("source", .meta "ParserService")])) ∧
      (∀ (k : String) (rec : PairRec),
        dlookup k (snapshotPairs
          [("BTC_USD", .pair ⟨1, "T1"⟩), ("source", .meta "ParserService")])
          = some rec →
        ∃ v : PairRec, dlookup k pairs = some v ∧
          (v = rec ∨ v.updated_at = "T2"))) ∧
    (∀ (fs1 fs2 : List FetchResult) (k : String),
      dlookup k (newFlat (fs1 ++ fs2))
        = (dlookup k (newFlat fs2)).or (dlookup k (newFlat fs1))) :=
  run_update_merge "T2" 2
    [("BTC_USD", .pair ⟨1, "T1"⟩), ("source", .meta "ParserService")]
    [FetchResult.failure, FetchResult.success [("ETH_USD", 10)]] (by decide)

/-! ## Claim C2: buying USD with USD loses the bought amount -/

/-- C2: for a logged-in user with USD balance `b` and `0 < a ≤ b`,
`buy("USD", a)` succeeds (the self rate is `1.0`, so the cost is `a`) and
persists a USD balance of exactly `b - a` in one write: the credit of the
purchased amount is written first and then overwritten by the debit, because
the target wallet and the settlement wallet share the key `"USD"`, so `a`
units of USD vanish from the portfolio. -/
theorem buy_usd_overwrite (now : String) (rates : RatesFull) (uid : Int)
    (uname : String) (ports : Portfolios) (a b : Rat)
    (hb : b = (dlookup "USD" (loadUserPortfolio uid ports)).getD 0)
    (ha : 0 < a) (hab : a ≤ b) :
    ∃ ports2 : Portfolios,
      buy now rates (some ⟨uid, uname⟩) ports "USD" a
        = .ok (ports2, [WriteOp.inPlaceWrite PORTFOLIOS_PATH ports2]) ∧
      dlookup "USD" (loadUserPortfolio uid ports2) = some (b - a) := by
  have hc : cur "USD" = .ok "USD" := rfl
  have hg : get_currency "USD" = .ok "USD" := rfl
  have hrr : getRatePair now rates "USD" "USD" = .ok (1, now) := rfl
  have hpos : ¬ (a ≤ 0) := not_le.mpr ha
  have hblt : ¬ (b < a) := not_lt.mpr hab
  have hb0 : ¬ (b < 0) := not_lt.mpr (le_trans ha.le hab)
  have hps : ¬ (pyStrip "USD" = "") := by decide
  refine ⟨saveUserPortfolio uid
      (dinsert "USD" (b - a)
        (dinsert "USD" (b + a) (loadUserPortfolio uid ports))) ports, ?_, ?_⟩
  · simp only [buy, requireSession, hc, hg, posAmount, hpos, if_false, hrr,
      ← hb, mul_one, hblt, Wallet.make, hps, hb0, Wallet.deposit,
      Wallet.withdraw, ensurePositiveAmount, save_json, ite_false]
  · rw [loadUserPortfolio_save, dlookup_dinsert]
    simp

/-- C2 witness: USD balance 1000, `buy("USD", 100)` persists exactly 900. -/
theorem buy_usd_overwrite_witness :
    ∃ ports2 : Portfolios,
      buy "T" [] (some ⟨1, "u"⟩) [⟨1, [("USD", 1000)]⟩] "USD" 100
        = .ok (ports2, [WriteOp.inPlaceWrite PORTFOLIOS_PATH ports2]) ∧
      dlookup "USD" (loadUserPortfolio 1 ports2) = some (1000 - 100) :=
  buy_usd_overwrite "T" [] 1 "u" [⟨1, [("USD", 1000)]⟩] 100 1000 rfl
    (by norm_num) (by norm_num)

/-! ## Claim C1: `buy` -/

/-- C1 counterexample: USD is a known currency, so the claim covers
`buy("USD", 100)` for a user holding `{USD: 1000}`; debiting the cost (100)
and crediting the amount (100) would leave 1000, but the code persists 900:
the credit entry is overwritten by the debit entry under the shared key
`"USD"`. -/
theorem buy_usd_self_trade_counterexample :
    (∃ ports2 : Portfolios,
      buy "T" [] (some ⟨1, "u"⟩) [⟨1, [("USD", 1000)]⟩] "USD" 100
        = .ok (ports2, [WriteOp.inPlaceWrite PORTFOLIOS_PATH ports2]) ∧
      dlookup "USD" (loadUserPortfolio 1 ports2) = some 900) ∧
    (900 : Rat) ≠ 1000 - 100 + 100 := by
  constructor
  · have hc : cur "USD" = .ok "USD" := rfl
    have hg : get_currency "USD" = .ok "USD" := rfl
    have hrr : getRatePair "T" [] "USD" "USD" = .ok (1, "T") := rfl
    have hload :
        (dlookup "USD" (loadUserPortfolio 1 [⟨1, [("USD", (1000 : Rat))]⟩])).getD 0
          = 1000 := rfl
    have hpos : ¬ ((100 : Rat) ≤ 0) := by norm_num
    have hblt : ¬ ((1000 : Rat) < 100) := by norm_num
    have hb0 : ¬ ((1000 : Rat) < 0) := by norm_num
    have hps : ¬ (pyStrip "USD" = "") := by decide
    refine ⟨saveUserPortfolio 1
        (dinsert "USD" ((1000 : Rat) - 100)
          (dinsert "USD" ((1000 : Rat) + 100)
            (loadUserPortfolio 1 [⟨1, [("USD", 1000)]⟩])))
        [⟨1, [("USD", 1000)]⟩], ?_, ?_⟩
    · simp only [buy, requireSession, hc, hg, posAmount, hpos, if_false, hrr,
        hload, mul_one, hblt, Wallet.make, hps, hb0, Wallet.deposit,
        Wallet.withdraw, ensurePositiveAmount, save_json, ite_false]
    · rw [loadUserPortfolio_save, dlookup_dinsert]
      norm_num
  · norm_num

/-- C1 (amended): for a logged-in user, a known currency code other than
`"USD"`, an amount `> 0`, and a snapshot that resolves the code against USD
to a positive rate (the data-model invariant requires strictly positive
rates), `buy` computes `cost = amount * rate`; when the USD balance is
strictly below the cost it raises `InsufficientFundsError(balance, cost,
"USD")` without mutating anything, and otherwise persists - in one write -
the portfolio with the USD wallet debited by the cost and the target wallet
credited by the amount.  For the excluded code `"USD"` the credit is lost
(see the counterexample). -/
theorem buy_correct (now ts : String) (rates : RatesFull) (uid : Int)
    (uname : String) (ports : Portfolios) (currency code : String)
    (amount r : Rat)
    (hcur : cur currency = .ok code)
    (hreg : code ∈ REGISTRY) (hUSD : code ≠ "USD")
    (hamt : 0 < amount)
    (hrate : getRatePair now rates code "USD" = .ok (r, ts))
    (hr : 0 < r)
    (hpc : 0 ≤ (dlookup code (loadUserPortfolio uid ports)).getD 0)
    (hpu : 0 ≤ (dlookup "USD" (loadUserPortfolio uid ports)).getD 0) :
    ((dlookup "USD" (loadUserPortfolio uid ports)).getD 0 < amount * r →
      buy now rates (some ⟨uid, uname⟩) ports currency amount
        = .error (.insufficientFunds
            ((dlookup "USD" (loadUserPortfolio uid ports)).getD 0)
            (amount * r) "USD")) ∧
    (amount * r ≤ (dlookup "USD" (loadUserPortfolio uid ports)).getD 0 →
      ∃ ports2 : Portfolios,
        buy now rates (some ⟨uid, uname⟩) ports currency amount
          = .ok (ports2, [WriteOp.inPlaceWrite PORTFOLIOS_PATH ports2]) ∧
        dlookup code (loadUserPortfolio uid ports2)
          = some ((dlookup code (loadUserPortfolio uid ports)).getD 0 + amount) ∧
        dlookup "USD" (loadUserPortfolio uid ports2)
          = some ((dlookup "USD" (loadUserPortfolio uid ports)).getD 0
              - amount * r)) := by
  have hcode : code = "EUR" ∨ code = "BTC" ∨ code = "ETH" := by
    simp only [REGISTRY, List.mem_cons, List.not_mem_nil, or_false] at hreg
    rcases hreg with h | h
    · exact absurd h hUSD
    · exact h
  have hg : get_currency code = .ok code := by
    rcases hcode with rfl | rfl | rfl <;> rfl
  have hps : ¬ (pyStrip code = "") := by
    rcases hcode with rfl | rfl | rfl <;> decide
  have hpsu : ¬ (pyStrip "USD" = "") := by decide
  have hposa : ¬ (amount ≤ 0) := not_le.mpr hamt
  have hpc0 : ¬ ((dlookup code (loadUserPortfolio uid ports)).getD 0 < 0) :=
    not_lt.mpr hpc
  have hpu0 : ¬ ((dlookup "USD" (loadUserPortfolio uid ports)).getD 0 < 0) :=
    not_lt.mpr hpu
  have hcostpos : ¬ (amount * r ≤ 0) := not_le.mpr (mul_pos hamt hr)
  constructor
  · intro hlt
    simp only [buy, requireSession, hcur, hg, posAmount, hposa, if_false,
      hrate, hlt, ite_true, if_true]
  · intro hle
    have hnlt : ¬ ((dlookup "USD" (loadUserPortfolio uid ports)).getD 0
        < amount * r) := not_lt.mpr hle
    refine ⟨saveUserPortfolio uid
        (dinsert "USD"
          ((dlookup "USD" (loadUserPortfolio uid ports)).getD 0 - amount * r)
          (dinsert code
            ((dlookup code (loadUserPortfolio uid ports)).getD 0 + amount)
            (loadUserPortfolio uid ports))) ports, ?_, ?_, ?_⟩
    · simp only [buy, requireSession, hcur, hg, posAmount, hposa, if_false,
        hrate, hnlt, Wallet.make, hps, hpsu, hpc0, hpu0, Wallet.deposit,
        Wallet.withdraw, ensurePositiveAmount, hcostpos, save_json, ite_false]
    · rw [loadUserPortfolio_save, dlookup_dinsert, dlookup_dinsert]
      have : ¬ ("USD" = code) := fun h => hUSD h.symm
      simp [this]
    · rw [loadUserPortfolio_save, dlookup_dinsert]
      simp

/-- C1 witness: the buy scenario of the specification - wallets
`{USD: 1000}`, snapshot `{BTC_USD: 50000}`, `buy("BTC", 0.01)` costs 500 and
persists `{USD: 500, BTC: 0.01}`. -/
theorem buy_correct_witness :
    ∃ ports2 : Portfolios,
      buy "T" [("BTC_USD", ⟨50000, "T"⟩)] (some ⟨1, "u"⟩)
          [⟨1, [("USD", 1000)]⟩] "BTC" (1 / 100)
        = .ok (ports2, [WriteOp.inPlaceWrite PORTFOLIOS_PATH ports2]) ∧
      dlookup "BTC" (loadUserPortfolio 1 ports2) = some (1 / 100) ∧
      dlookup "USD" (loadUserPortfolio 1 ports2) = some 500 := by
  have hlb : (dlookup "BTC"
      (loadUserPortfolio 1 [⟨1, [("USD", (1000 : Rat))]⟩])).getD 0 = 0 := rfl
  have hlu : (dlookup "USD"
      (loadUserPortfolio 1 [⟨1, [("USD", (1000 : Rat))]⟩])).getD 0 = 1000 := rfl
  have h := (buy_correct "T" "T" [("BTC_USD", ⟨50000, "T"⟩)] 1 "u"
    [⟨1, [("USD", 1000)]⟩] "BTC" "BTC" (1 / 100) 50000 rfl (by decide)
    (by decide) (by norm_num) rfl (by norm_num) (by rw [hlb])
    (by rw [hlu]; norm_num)).2 (by rw [hlu]; norm_num)
  obtain ⟨ports2, h1, h2, h3⟩ := h
  refine ⟨ports2, h1, ?_, ?_⟩
  · rw [h2, hlb]; norm_num
  · rw [h3, hlu]; norm_num

/-! ## Claim C3: `sell` -/

/-- C3: selling `"USD"` always fails with the currency-restriction
`ValueError` before anything is read or mutated, regardless of balances.
For a known code other than `"USD"` and a positive amount, `sell` raises
`InsufficientFundsError(balance, amount, code)` when the wallet balance is
strictly below the amount (the balance check precedes the rate lookup), and
otherwise - when the code resolves against USD to a positive rate - persists
in one write the source wallet debited by the amount and the USD wallet
credited by `amount * rate`. -/
theorem sell_correct (now : String) (rates : RatesFull) (uid : Int)
    (uname : String) (ports : Portfolios) (currency code : String)
    (amount : Rat)
    (hcur : cur currency = .ok code)
    (hreg : code ∈ REGISTRY) (hUSD : code ≠ "USD")
    (hamt : 0 < amount) :
    (∀ (c : String) (x : Rat), cur c = .ok "USD" →
      sell now rates (some ⟨uid, uname⟩) ports c x
        = .error
            (.valueError "selling USD is not supported; pick another currency")) ∧
    ((dlookup code (loadUserPortfolio uid ports)).getD 0 < amount →
      sell now rates (some ⟨uid, uname⟩) ports currency amount
        = .error (.insufficientFunds
            ((dlookup code (loadUserPortfolio uid ports)).getD 0) amount code)) ∧
    (amount ≤ (dlookup code (loadUserPortfolio uid ports)).getD 0 →
      ∀ (r : Rat) (ts : String),
        getRatePair now rates code "USD" = .ok (r, ts) → 0 < r →
        0 ≤ (dlookup "USD" (loadUserPortfolio uid ports)).getD 0 →
        ∃ ports2 : Portfolios,
          sell now rates (some ⟨uid, uname⟩) ports currency amount
            = .ok (ports2, [WriteOp.inPlaceWrite PORTFOLIOS_PATH ports2]) ∧
          dlookup code (loadUserPortfolio uid ports2)
            = some ((dlookup code (loadUserPortfolio uid ports)).getD 0
                - amount) ∧
          dlookup "USD" (loadUserPortfolio uid ports2)
            = some ((dlookup "USD" (loadUserPortfolio uid ports)).getD 0
                + amount * r)) := by
  have hcode : code = "EUR" ∨ code = "BTC" ∨ code = "ETH" := by
    simp only [REGISTRY, List.mem_cons, List.not_mem_nil, or_false] at hreg
    rcases hreg with h | h
    · exact absurd h hUSD
    · exact h
  have hg : get_currency code = .ok code := by
    rcases hcode with rfl | rfl | rfl <;> rfl
  have hps : ¬ (pyStrip code = "") := by
    rcases hcode with rfl | rfl | rfl <;> decide
  have hpsu : ¬ (pyStrip "USD" = "") := by decide
  have hposa : ¬ (amount ≤ 0) := not_le.mpr hamt
  refine ⟨?_, ?_, ?_⟩
  · intro c x hc
    simp only [sell, requireSession, hc, if_true, ite_true]
  · intro hlt
    simp only [sell, requireSession, hcur, hUSD, if_false, ite_false, hg,
      posAmount, hposa, hlt, if_true, ite_true]
  · intro hle r ts hrate hr hpu
    have hnlt : ¬ ((dlookup code (loadUserPortfolio uid ports)).getD 0
        < amount) := not_lt.mpr hle
    have hpc0 : ¬ ((dlookup code (loadUserPortfolio uid ports)).getD 0 < 0) :=
      not_lt.mpr (le_trans hamt.le hle)
    have hpu0 : ¬ ((dlookup "USD" (loadUserPortfolio uid ports)).getD 0 < 0) :=
      not_lt.mpr hpu
    have hrevpos : ¬ (amount * r ≤ 0) := not_le.mpr (mul_pos hamt hr)
    refine ⟨saveUserPortfolio uid
        (dinsert "USD"
          ((dlookup "USD" (loadUserPortfolio uid ports)).getD 0 + amount * r)
          (dinsert code
            ((dlookup code (loadUserPortfolio uid ports)).getD 0 - amount)
            (loadUserPortfolio uid ports))) ports, ?_, ?_, ?_⟩
    · simp only [sell, requireSession, hcur, hUSD, if_false, ite_false, hg,
        posAmount, hposa, hnlt, hrate, Wallet.make, hps, hpsu, hpc0, hpu0,
        Wallet.deposit, Wallet.withdraw, ensurePositiveAmount, hrevpos,
        save_json]
    · rw [loadUserPortfolio_save, dlookup_dinsert, dlookup_dinsert]
      have : ¬ ("USD" = code) := fun h => hUSD h.symm
      simp [this]
    · rw [loadUserPortfolio_save, dlookup_dinsert]
      simp

/-- C3 witness: `sell("USD", 10)` fails with the restriction error; the sell
scenario of the specification - wallets `{BTC: 0.01, USD: 500}`, snapshot
`{BTC_USD: 60000}`, `sell("BTC", 0.01)` yields `{BTC: 0, USD: 1100}`. -/
theorem sell_correct_witness :
    (sell "T" [("BTC_USD", ⟨60000, "T"⟩)] (some ⟨1, "u"⟩)
        [⟨1, [("BTC", 1 / 100), ("USD", 500)]⟩] "USD" 10
      = .error
          (.valueError "selling USD is not supported; pick another currency")) ∧
    ∃ ports2 : Portfolios,
      sell "T" [("BTC_USD", ⟨60000, "T"⟩)] (some ⟨1, "u"⟩)
          [⟨1, [("BTC", 1 / 100), ("USD", 500)]⟩] "BTC" (1 / 100)
        = .ok (ports2, [WriteOp.inPlaceWrite PORTFOLIOS_PATH ports2]) ∧
      dlookup "BTC" (loadUserPortfolio 1 ports2) = some 0 ∧
      dlookup "USD" (loadUserPortfolio 1 ports2) = some 1100 := by
  have hp := sell_correct "T" [("BTC_USD", ⟨60000, "T"⟩)] 1 "u"
    [⟨1, [("BTC", 1 / 100), ("USD", 500)]⟩] "BTC" "BTC" (1 / 100) rfl
    (by decide) (by decide) (by norm_num)
  have hlb : (dlookup "BTC" (loadUserPortfolio 1
      [⟨1, [("BTC", (1 : Rat) / 100), ("USD", 500)]⟩])).getD 0 = 1 / 100 := rfl
  have hlu : (dlookup "USD" (loadUserPortfolio 1
      [⟨1, [("BTC", (1 : Rat) / 100), ("USD", 500)]⟩])).getD 0 = 500 := rfl
  refine ⟨hp.1 "USD" 10 rfl, ?_⟩
  have h := hp.2.2 (by rw [hlb]) 60000 "T" rfl (by norm_num)
    (by rw [hlu]; norm_num)
  obtain ⟨p2, h1, h2, h3⟩ := h
  refine ⟨p2, h1, ?_, ?_⟩
  · rw [h2, hlb]; norm_num
  · rw [h3, hlu]; norm_num

end ValutaTradeHub
